import Mathlib

/-!
Verification of the TCPROS core of the `@foxglove/ros1` TypeScript repository.

This file gives a shallow embedding of the parts of the source the claims
C1 - C10 are about, and proves (or refutes) each claim:

* the length-delimited framing codec `RosTcpMessageStream.addData`
  (src/src/RosTcpMessageStream.ts),
* the connection-header codec `TcpConnection.SerializeHeader` /
  `TcpConnection.ParseHeader` (src/src/TcpConnection.ts),
* the inbound handshake `TcpClient._handleMessage`, in both variants present
  in the source (src/src/TcpClient.ts and src/unnamed/part_001),
* `Publication.write`, `Publication.addSubscriber`, `Publication.getInfo`,
  `Publication.getStats` (src/src/Publication.ts) together with
  `TcpClient.write` (src/src/TcpClient.ts),
* the XML-RPC handler `RosFollower.requestTopic` (src/src/RosFollower.ts),
* `backoffTime` and `retryForever` (src/src/backoff.ts) together with the
  operation `RosNode._registerSubscriberAndConnect` passes to `retryForever`.

Byte buffers (`Uint8Array`) are modelled as `List Nat` with every element
below 256; JavaScript numbers entering arithmetic comparisons are modelled as
`Nat` (array lengths, ports) or `ℚ` (the backoff arithmetic on doubles).
-/

namespace Ros1

/-! ## Framing codec (`RosTcpMessageStream.ts`) -/

/-- Maximum message length allowed, `MAX_MSG_LENGTH` in RosTcpMessageStream.ts. -/
def MAX_MSG_LENGTH : Nat := 1000000000

/-- Little-endian 32-bit read of the first four bytes of a buffer, as performed
by `new DataView(...).getUint32(0, true)`.  Every call site passes a buffer of
exactly four bytes. -/
def u32le (b : List Nat) : Nat :=
  b.getD 0 0 + b.getD 1 0 * 256 + b.getD 2 0 * 256 ^ 2 + b.getD 3 0 * 256 ^ 3

/-- Little-endian four-byte encoding written by `DataView.setUint32(_, n, true)`. -/
def u32enc (n : Nat) : List Nat :=
  [n % 256, n / 256 % 256, n / 256 ^ 2 % 256, n / 256 ^ 3 % 256]

/-- Decoder state of `RosTcpMessageStream`: the fields `_inMessage` and
`_bytesNeeded`, plus the bytes accumulated in `_chunks` (the class stores a
list of partial chunks and concatenates them with `concatData` when the
current item completes; concatenation lets us store the bytes directly). -/
structure StreamState where
  inMessage : Bool
  bytesNeeded : Nat
  chunks : List Nat
deriving Repr, DecidableEq

/-- The freshly constructed stream: `_inMessage = false`, `_bytesNeeded = 4`,
`_chunks = []`. -/
def initialStream : StreamState := { inMessage := false, bytesNeeded := 4, chunks := [] }

/-- One call to `RosTcpMessageStream.addData(chunk)`.  The first component is
the list of payloads emitted as `message` events during the call, in order;
the second is `some` final state, or `none` when the call throws the
`Invalid message length` error (the emissions that happened earlier in the
same call are kept, as they happened before the throw).

In every state reachable from `initialStream` the invariant `1 ≤ bytesNeeded`
holds (the source transitions only ever set `_bytesNeeded` to `4` or to a
positive message length); the `bytesNeeded = 0` branch below is dead code
present only so the recursion visibly terminates. -/
def addData (s : StreamState) (chunk : List Nat) : List (List Nat) × Option StreamState :=
  if h1 : chunk = [] then ([], some s)
  else if h2 : chunk.length < s.bytesNeeded then
    ([], some { inMessage := s.inMessage, bytesNeeded := s.bytesNeeded - chunk.length,
                chunks := s.chunks ++ chunk })
  else if h3 : s.bytesNeeded = 0 then ([], none)
  else
    let payload := s.chunks ++ chunk.take s.bytesNeeded
    if s.inMessage then
      let r := addData { inMessage := false, bytesNeeded := 4, chunks := [] }
        (chunk.drop s.bytesNeeded)
      (payload :: r.1, r.2)
    else
      let len := u32le payload
      if MAX_MSG_LENGTH < len then ([], none)
      else if len = 0 then
        let r := addData { inMessage := false, bytesNeeded := 4, chunks := [] }
          (chunk.drop s.bytesNeeded)
        ([] :: r.1, r.2)
      else
        addData { inMessage := true, bytesNeeded := len, chunks := [] }
          (chunk.drop s.bytesNeeded)
termination_by chunk.length
decreasing_by all_goals (simp only [List.length_drop]; omega)

/-- Sequencing of two decoder runs: the second runs only if the first did not
throw, and the emitted payloads are concatenated. -/
def seqResult (r : List (List Nat) × Option StreamState)
    (f : StreamState → List (List Nat) × Option StreamState) :
    List (List Nat) × Option StreamState :=
  match r with
  | (m, none) => (m, none)
  | (m, some s) => ((m ++ (f s).1 : List (List Nat)), (f s).2)

/-- Feed a list of chunks through successive `addData` calls, collecting every
emitted payload; a throw stops the run with the payloads emitted so far. -/
def feedChunks (s : StreamState) : List (List Nat) → List (List Nat) × Option StreamState
  | [] => ([], some s)
  | c :: cs => seqResult (addData s c) fun s1 => feedChunks s1 cs

/-- The framing serializer: `encode(payload) = u32le(len(payload)) || payload`
(built by `TcpConnection.writeHeader` / `TcpClient._writeHeader` and by the
message path in `Publication`). -/
def encodeFrame (p : List Nat) : List Nat := u32enc p.length ++ p

/-! ## Connection-header codec (`TcpConnection.ts`)

Header strings are ASCII, so `TextEncoder`/`TextDecoder` are the identity on
the byte lists we use; keys and values are modelled directly as byte lists and
the `=` separator is byte 61. -/

/-- `TcpConnection.SerializeHeader`: each `key=value` pair of the map, in map
order, is encoded as `u32le(byteLength) || key || "=" || value`, and the
encodings are concatenated. -/
def serializeHeader : List (List Nat × List Nat) → List Nat
  | [] => []
  | (k, v) :: rest =>
    u32enc (k.length + 1 + v.length) ++ (k ++ 61 :: v) ++ serializeHeader rest

/-- `TcpConnection.ParseHeader`.  The loop runs while `idx + 4 < data.length`;
the declared field length is clamped to the bytes remaining after the length
prefix; the string splits at its first `=` — when there is none,
`String.indexOf` returns `-1` and the code substitutes the string length
(which is exactly what `List.indexOf` returns for an absent element), making
the whole string the key and the value empty.  The source accumulates the
pairs with `Map.set`; entries are returned here in parse order, which
represents the map whenever the keys are distinct. -/
def parseHeader (data : List Nat) : List (List Nat × List Nat) :=
  if h : 4 < data.length then
    let len := min (u32le (data.take 4)) (data.length - 4)
    let str := (data.drop 4).take len
    let eqIdx := str.indexOf 61
    (str.take eqIdx, str.drop (eqIdx + 1)) :: parseHeader (data.drop (4 + len))
  else []
termination_by data.length
decreasing_by simp only [List.length_drop]; omega

/-! ## Publication state (`Publication.ts`, `SubscriberLink.ts`, `Client.ts`)

A `SubscriberLink` couples a connection id and destination caller id with the
attached `Client` (a `TcpClient`).  The client fields needed by the claims are
inlined: its transport type, its stats counters (`bytesSent`, `messagesSent`),
and `writeFails`, which models whether the underlying `socket.write` rejects. -/

structure SubscriberLink where
  connectionId : Nat
  destinationCallerId : String
  transportType : String
  writeFails : Bool
  bytesSent : Nat
  messagesSent : Nat
deriving Repr, DecidableEq

/-- `Map.set` on an association list: replaces the value under an existing key
in place, otherwise appends the new entry. -/
def jsMapSet {κ α : Type} [BEq κ] (m : List (κ × α)) (k : κ) (v : α) : List (κ × α) :=
  if m.any fun p => p.1 == k then
    m.map fun p => if p.1 == k then (k, v) else p
  else m ++ [(k, v)]

/-- The `Publication` class: the immutable metadata, the `_latched` map from
transport kind to the most recently published pre-framed payload, and the
`_subscribers` map in insertion order. -/
structure Publication where
  name : String
  md5sum : String
  dataType : String
  latching : Bool
  messageDefinitionText : String
  latched : List (String × List Nat)
  subscribers : List SubscriberLink
deriving Repr, DecidableEq

/-- `Publication.latchedMessage(transportType)`: `this._latched.get(transportType)`. -/
def latchedMessage (p : Publication) (transportType : String) : Option (List Nat) :=
  p.latched.lookup transportType

/-- The socket write underlying `TcpClient.write`: rejects exactly when the
link's `writeFails` flag is set. -/
def socketWrite (c : SubscriberLink) : Except String Unit :=
  if c.writeFails then .error "EPIPE" else .ok ()

/-- `TcpClient.write(data)`: awaits the socket write and then updates the
stats; a socket failure is caught and only logged, so the promise returned to
the caller always fulfills (the `Except` result is always `.ok`). -/
def clientWrite (c : SubscriberLink) (data : List Nat) : SubscriberLink × Except String Unit :=
  match socketWrite c with
  | .ok _ =>
    ({ c with messagesSent := c.messagesSent + 1, bytesSent := c.bytesSent + data.length },
     .ok ())
  | .error _ => (c, .ok ())

/-- `Promise.allSettled(tasks)`: waits for every task to settle and never
rejects, whatever the individual outcomes were. -/
def promiseAllSettled (tasks : List (Except String Unit)) : Except String Unit :=
  match tasks with
  | _ => .ok ()

/-- The subscribers `Publication.write(transportType, data)` fans out to:
every attached subscriber whose client reports the matching transport type. -/
def writeTargets (p : Publication) (transportType : String) : List SubscriberLink :=
  p.subscribers.filter fun sub => sub.transportType == transportType

/-- `Publication.write(transportType, data)`: when latching, first replace the
stored latched payload for this transport kind; then start a `client.write`
task per matching subscriber (each task receives its own defensive copy of the
same `data`) and await `Promise.allSettled` of the tasks. -/
def publicationWrite (p : Publication) (transportType : String) (data : List Nat) :
    Except String Publication :=
  let p1 := if p.latching then { p with latched := jsMapSet p.latched transportType data } else p
  let tasks := (writeTargets p1 transportType).map fun sub => (clientWrite sub data).2
  match promiseAllSettled tasks with
  | .error e => .error e
  | .ok _ =>
    .ok { p1 with subscribers := p1.subscribers.map fun sub =>
            if sub.transportType == transportType then (clientWrite sub data).1 else sub }

/-- `Publication.addSubscriber`: `this._subscribers.set(connectionId, link)`.
Connection ids come from the node's monotone counter, so in practice the key
is always fresh and the entry is appended. -/
def addSubscriber (p : Publication) (link : SubscriberLink) : Publication :=
  { p with subscribers :=
      if p.subscribers.any (fun s => s.connectionId == link.connectionId) then
        p.subscribers.map fun s => if s.connectionId == link.connectionId then link else s
      else p.subscribers ++ [link] }

/-- The close handler `Publication.addSubscriber` registers on the client:
`this._subscribers.delete(connectionId)`. -/
def removeSubscriber (p : Publication) (connectionId : Nat) : Publication :=
  { p with subscribers := p.subscribers.filter fun s => s.connectionId != connectionId }

/-- `Publication.getInfo()`: one tuple per attached subscriber
`[connectionId, destinationCallerId, "o", transport, topicName, 1, info]`
(the trailing transport-info string is presentation-only and omitted). -/
def getInfo (p : Publication) : List (Nat × String × String × String × String × Nat) :=
  p.subscribers.map fun sub =>
    (sub.connectionId, sub.destinationCallerId, "o", sub.transportType, p.name, 1)

/-- `Publication.getStats()`: the topic name and, per subscriber,
`[connectionId, bytesSent, bytesSent, messagesSent, 0]`. -/
def getStats (p : Publication) : String × List (Nat × Nat × Nat × Nat × Nat) :=
  (p.name, p.subscribers.map fun sub =>
    (sub.connectionId, sub.bytesSent, sub.bytesSent, sub.messagesSent, 0))

/-- Events a publication's subscriber map reacts to: `addSubscriber` calls and
`close` events from attached clients. -/
inductive ClientEvent where
  | add (link : SubscriberLink)
  | clientClose (connectionId : Nat)
deriving Repr, DecidableEq

/-- Whether an event adds a link carrying the given connection id. -/
def eventAddsId (e : ClientEvent) (id : Nat) : Bool :=
  match e with
  | .add link => link.connectionId == id
  | .clientClose _ => false

/-- Apply one event to the publication state. -/
def applyEvent (p : Publication) : ClientEvent → Publication
  | .add link => addSubscriber p link
  | .clientClose id => removeSubscriber p id

/-- Apply a sequence of events in order. -/
def runEvents (p : Publication) (evs : List ClientEvent) : Publication :=
  evs.foldl applyEvent p

/-! ## Inbound handshake (`TcpClient._handleMessage`)

The source contains two variants of this method: the one in
src/src/TcpClient.ts and the one in src/unnamed/part_001.  They differ in a
single check (whether a declared type of `"*"` is accepted).  Both are
embedded.  The functions below take the already-parsed header map (the method
first runs `TcpConnection.ParseHeader` on the frame) and the node's
publication lookup, and describe the first-frame behaviour; on later frames
the method only counts and discards the bytes. -/

/-- Outcome of the first-frame handler: either the socket is closed
(rejection), or the handshake is accepted, recording the `setNoDelay`
argument, the response header written back, the latched payload written (if
any), and the `subscribe` event's topic and destination caller id. -/
inductive HandshakeOutcome where
  | closed
  | accepted (noDelay : Bool) (responseHeader : List (String × String))
      (latchedWrite : Option (List Nat)) (topic : String) (destinationCallerId : String)
deriving Repr, DecidableEq

/-- The response header written on acceptance (identical in both variants). -/
def responseHeader (nodeName : String) (pub : Publication) : List (String × String) :=
  [("callerid", nodeName),
   ("latching", if pub.latching then "1" else "0"),
   ("md5sum", pub.md5sum),
   ("message_definition", pub.messageDefinitionText),
   ("topic", pub.name),
   ("type", pub.dataType)]

/-- `TcpClient._handleMessage` as in src/src/TcpClient.ts (first frame).  Note
the type check `pub.dataType !== dataType` admits no `"*"` wildcard, and a
missing `md5sum` defaults to `"*"`.  `setNoDelay` is actually invoked before
the validation checks, so its argument is recorded only on acceptance here. -/
def handleMessageSrc (nodeName : String) (header : List (String × String))
    (getPublication : String → Option Publication) : HandshakeOutcome :=
  let md5sum := (header.lookup "md5sum").getD "*"
  let tcpNoDelay := header.lookup "tcp_nodelay" == some "1"
  match header.lookup "topic", header.lookup "type", header.lookup "callerid" with
  | some topic, some dataType, some destinationCallerId =>
    match getPublication topic with
    | none => .closed
    | some pub =>
      if pub.dataType != dataType then .closed
      else if md5sum != "*" && pub.md5sum != md5sum then .closed
      else
        .accepted tcpNoDelay (responseHeader nodeName pub) (latchedMessage pub "TCPROS")
          topic destinationCallerId
  | _, _, _ => .closed

/-- `TcpClient._handleMessage` as in src/unnamed/part_001 (first frame): same
as `handleMessageSrc` except the type check is
`dataType !== "*" && pub.dataType !== dataType`, so a declared type `"*"` is
accepted. -/
def handleMessagePart001 (nodeName : String) (header : List (String × String))
    (getPublication : String → Option Publication) : HandshakeOutcome :=
  let md5sum := (header.lookup "md5sum").getD "*"
  let tcpNoDelay := header.lookup "tcp_nodelay" == some "1"
  match header.lookup "topic", header.lookup "type", header.lookup "callerid" with
  | some topic, some dataType, some destinationCallerId =>
    match getPublication topic with
    | none => .closed
    | some pub =>
      if dataType != "*" && pub.dataType != dataType then .closed
      else if md5sum != "*" && pub.md5sum != md5sum then .closed
      else
        .accepted tcpNoDelay (responseHeader nodeName pub) (latchedMessage pub "TCPROS")
          topic destinationCallerId
  | _, _, _ => .closed

/-- The rejection condition exactly as claim C2 states it: `topic`, `callerid`
or `type` missing; topic not advertised; declared type neither equal to the
publication's type nor `"*"`; or declared md5sum neither `"*"` nor equal to
the publication's md5sum. -/
def specRejects (header : List (String × String))
    (getPublication : String → Option Publication) : Bool :=
  match header.lookup "topic", header.lookup "type", header.lookup "callerid" with
  | some topic, some dataType, some _ =>
    match getPublication topic with
    | none => true
    | some pub =>
      (dataType != "*" && pub.dataType != dataType) ||
      (let md5sum := (header.lookup "md5sum").getD "*"
       md5sum != "*" && pub.md5sum != md5sum)
  | _, _, _ => true

/-- The rejection condition with the type-wildcard clause removed: the
declared type must equal the publication's type exactly.  This is the
condition the src/src/TcpClient.ts variant implements. -/
def specRejectsExactType (header : List (String × String))
    (getPublication : String → Option Publication) : Bool :=
  match header.lookup "topic", header.lookup "type", header.lookup "callerid" with
  | some topic, some dataType, some _ =>
    match getPublication topic with
    | none => true
    | some pub =>
      (pub.dataType != dataType) ||
      (let md5sum := (header.lookup "md5sum").getD "*"
       md5sum != "*" && pub.md5sum != md5sum)
  | _, _, _ => true

/-- A publication of a `std_msgs/Bool`-typed topic, used as the concrete
input of the C2 counterexample. -/
def boolPub : Publication :=
  { name := "/chatter", md5sum := "8b94c1b53db61fb6aed406028ad6332a",
    dataType := "std_msgs/Bool", latching := false,
    messageDefinitionText := "bool data", latched := [], subscribers := [] }

/-- A publication table advertising only `boolPub`. -/
def boolPubTable : String → Option Publication :=
  fun topic => if topic = "/chatter" then some boolPub else none

/-- A subscriber request header declaring the wildcard type `"*"` (and no
md5sum, which defaults to the wildcard). -/
def starTypeHeader : List (String × String) :=
  [("topic", "/chatter"), ("callerid", "/listener"), ("type", "*")]

/-- A request header that `handleMessageSrc` accepts for `boolPub`. -/
def acceptHeader : List (String × String) :=
  [("topic", "/chatter"), ("callerid", "/sub"), ("type", "std_msgs/Bool"),
   ("tcp_nodelay", "1")]

/-- A healthy attached subscriber. -/
def linkGood : SubscriberLink :=
  { connectionId := 1, destinationCallerId := "/subA", transportType := "TCPROS",
    writeFails := false, bytesSent := 0, messagesSent := 0 }

/-- An attached subscriber whose socket writes fail. -/
def linkBad : SubscriberLink :=
  { connectionId := 2, destinationCallerId := "/subB", transportType := "TCPROS",
    writeFails := true, bytesSent := 0, messagesSent := 0 }

/-- A latching publication with one healthy and one failing subscriber. -/
def pubTwoSubs : Publication :=
  { name := "/chatter", md5sum := "8b94c1b53db61fb6aed406028ad6332a",
    dataType := "std_msgs/Bool", latching := true,
    messageDefinitionText := "bool data", latched := [],
    subscribers := [linkGood, linkBad] }

/-! ## `RosFollower.requestTopic` (`RosFollower.ts`) -/

/-- The XML-RPC value model (`XmlRpcValue` from `@foxglove/xmlrpc`). -/
inductive XmlRpcValue where
  | str (s : String)
  | num (n : Int)
  | boolean (b : Bool)
  | arr (xs : List XmlRpcValue)

/-- Whether a protocol entry is a non-empty array whose first element is the
string `"TCPROS"` (`proto[0] === "TCPROS"` after the `Array.isArray` and
length checks). -/
def isTcprosEntry : XmlRpcValue → Bool
  | .arr (.str s :: _) => s == "TCPROS"
  | _ => false

/-- `TcpRequested(protocols)` from RosFollower.ts: scans the protocol list for
a TCPROS entry. -/
def tcpRequested (protocols : List XmlRpcValue) : Bool :=
  protocols.any isTcprosEntry

/-- The protocols condition as claim C7 states it: the third argument is an
array containing an array whose first element is the string `"TCPROS"` (a
non-array third argument contains none). -/
def protocolsHaveTcpEntry (protocols : XmlRpcValue) : Prop :=
  ∃ ps rest, protocols = .arr ps ∧ XmlRpcValue.arr (.str "TCPROS" :: rest) ∈ ps

/-- The node-side context `requestTopic` consults: the node name, the set of
advertised topic names (`publications.has`), the TCP listener address
(`tcpServerAddress()`), and the local address of the HTTP socket the RPC
arrived on (`req?.socket?.localAddress`). -/
structure RequestTopicEnv where
  nodeName : String
  publications : List String
  tcpAddr : Option (String × Nat)
  httpLocalAddress : Option String

/-- `RosFollower.requestTopic` after argument validation.  `protocols` is the
third RPC argument; `process` models the external `ipaddr.process(addr)
.toString()` normalization applied to the chosen host string. -/
def requestTopic (env : RequestTopicEnv) (topic : String) (protocols : XmlRpcValue)
    (process : String → String) : Nat × String × XmlRpcValue :=
  if ¬ env.publications.contains topic then
    (0, "topic \"" ++ topic ++ " is not advertised by node " ++ env.nodeName ++ "\"", .arr [])
  else
    match protocols with
    | .arr ps =>
      if ¬ tcpRequested ps then (0, "unsupported protocol", .arr [])
      else
        match env.tcpAddr with
        | none => (0, "cannot receive incoming connections", .arr [])
        | some (address, port) =>
          let socketLocalAddress := process (env.httpLocalAddress.getD address)
          (1, "", .arr [.str "TCPROS", .str socketLocalAddress, .num port])
    | _ => (0, "unsupported protocol", .arr [])

/-! ## Backoff and retry (`backoff.ts`) -/

/-- `backoffTime(retries, maxMs, maxJitterMs, rng)`: JavaScript doubles are
modelled as rationals, and the sampled `rng()` value is passed explicitly.
Defaults are `maxMs = 10000`, `maxJitterMs = 1000`. -/
def backoffTime (retries : Nat) (maxMs maxJitterMs rand : ℚ) : ℚ :=
  min (2 ^ retries + rand * maxJitterMs) maxMs

/-- `retryForever(fn)` driven by the outcome sequence of successive
invocations: `ops i` is what the `i`-th invocation (0-based) of `fn` returns,
and `rand n` the `Math.random()` sample of the `n`-th `backoff` call.  The
loop increments `retries` before each sleep, so the sleep after the `i`-th
failed invocation lasts `backoffTime (i+1)`.  Returns the number of
invocations made, the sleep durations taken in order, and the successful
result; `none` when the first `fuel` invocations all fail (the source loops
forever in that case). -/
def retryForeverRun (ops : Nat → Except String (List String)) (rand : Nat → ℚ) :
    Nat → Nat → Option (Nat × List ℚ × List String)
  | 0, _ => none
  | fuel + 1, i =>
    match ops i with
    | .ok v => some (i + 1, [], v)
    | .error _ =>
      match retryForeverRun ops rand fuel (i + 1) with
      | none => none
      | some (count, sleeps, v) =>
        some (count, backoffTime (i + 1) 10000 1000 (rand (i + 1)) :: sleeps, v)

/-- The operation `RosNode._registerSubscriberAndConnect` passes to
`retryForever`: if the node is no longer subscribed to the topic, return an
empty publisher list (succeeding vacuously); otherwise perform the master
registration.  `subscribedAt i` is the subscription liveness observed by the
`i`-th invocation and `register i` that invocation's master call outcome. -/
def registerOp (subscribedAt : Nat → Bool) (register : Nat → Except String (List String))
    (i : Nat) : Except String (List String) :=
  if subscribedAt i then register i else .ok []

/-! ## Framing codec: evaluation lemmas -/

theorem u32enc_length (n : Nat) : (u32enc n).length = 4 := by
  simp [u32enc]

theorem u32le_u32enc (n : Nat) (h : n < 2 ^ 32) : u32le (u32enc n) = n := by
  simp only [u32le, u32enc, List.getD_cons_zero, List.getD_cons_succ]
  omega

theorem addData_nil (s : StreamState) : addData s [] = ([], some s) := by
  rw [addData]
  simp

theorem addData_buffering (s : StreamState) (chunk : List Nat) (h1 : chunk ≠ [])
    (h2 : chunk.length < s.bytesNeeded) :
    addData s chunk =
      ([], some ⟨s.inMessage, s.bytesNeeded - chunk.length, s.chunks ++ chunk⟩) := by
  rw [addData]
  simp [h1, h2]

theorem addData_dead (s : StreamState) (chunk : List Nat) (h1 : chunk ≠ [])
    (h2 : ¬ chunk.length < s.bytesNeeded) (h3 : s.bytesNeeded = 0) :
    addData s chunk = ([], none) := by
  rw [addData]
  simp [h1, h2, h3]

theorem addData_msg (s : StreamState) (chunk : List Nat) (h1 : chunk ≠ [])
    (h2 : ¬ chunk.length < s.bytesNeeded) (h3 : s.bytesNeeded ≠ 0)
    (him : s.inMessage = true) :
    addData s chunk =
      ((s.chunks ++ chunk.take s.bytesNeeded) ::
         (addData initialStream (chunk.drop s.bytesNeeded)).1,
       (addData initialStream (chunk.drop s.bytesNeeded)).2) := by
  rw [addData]
  simp [h1, h2, h3, him, initialStream]

theorem addData_header_err (s : StreamState) (chunk : List Nat) (h1 : chunk ≠ [])
    (h2 : ¬ chunk.length < s.bytesNeeded) (h3 : s.bytesNeeded ≠ 0)
    (him : s.inMessage = false)
    (hlen : MAX_MSG_LENGTH < u32le (s.chunks ++ chunk.take s.bytesNeeded)) :
    addData s chunk = ([], none) := by
  rw [addData]
  simp [h1, h2, h3, him, hlen]

theorem addData_header_zero (s : StreamState) (chunk : List Nat) (h1 : chunk ≠ [])
    (h2 : ¬ chunk.length < s.bytesNeeded) (h3 : s.bytesNeeded ≠ 0)
    (him : s.inMessage = false)
    (hlen : u32le (s.chunks ++ chunk.take s.bytesNeeded) = 0) :
    addData s chunk =
      ([] :: (addData initialStream (chunk.drop s.bytesNeeded)).1,
       (addData initialStream (chunk.drop s.bytesNeeded)).2) := by
  rw [addData]
  simp [h1, h2, h3, him, hlen, MAX_MSG_LENGTH, initialStream]

theorem addData_header_pos (s : StreamState) (chunk : List Nat) (h1 : chunk ≠ [])
    (h2 : ¬ chunk.length < s.bytesNeeded) (h3 : s.bytesNeeded ≠ 0)
    (him : s.inMessage = false)
    (hmax : ¬ MAX_MSG_LENGTH < u32le (s.chunks ++ chunk.take s.bytesNeeded))
    (hpos : u32le (s.chunks ++ chunk.take s.bytesNeeded) ≠ 0) :
    addData s chunk =
      addData ⟨true, u32le (s.chunks ++ chunk.take s.bytesNeeded), []⟩
        (chunk.drop s.bytesNeeded) := by
  rw [addData]
  simp [h1, h2, h3, him, hmax, hpos]

/-- Chunking invariance: one `addData` call on `a ++ b` behaves exactly like a
call on `a` followed (when the first call did not throw) by a call on `b`.
This is the key lemma behind the arbitrary-chunking claim. -/
theorem addData_append_le (N : Nat) :
    ∀ (a : List Nat), a.length ≤ N → ∀ (s : StreamState) (b : List Nat),
      addData s (a ++ b) = seqResult (addData s a) fun s1 => addData s1 b := by
  induction N with
  | zero =>
    intro a ha s b
    have hae : a = [] := List.eq_nil_of_length_eq_zero (Nat.le_zero.mp ha)
    subst hae
    simp [addData_nil, seqResult]
  | succ N ih =>
    intro a ha s b
    by_cases hae : a = []
    · subst hae
      simp [addData_nil, seqResult]
    · have halen : 0 < a.length := List.length_pos.mpr hae
      by_cases h2 : a.length < s.bytesNeeded
      · -- `a` is a strict partial prefix of the current item
        have key : addData s (a ++ b) =
            addData (⟨s.inMessage, s.bytesNeeded - a.length, s.chunks ++ a⟩ : StreamState) b := by
          by_cases hbe : b = []
          · subst hbe
            rw [List.append_nil, addData_buffering s a hae h2, addData_nil]
          · by_cases h3 : (a ++ b).length < s.bytesNeeded
            · rw [addData_buffering s (a ++ b) (by simp [hae]) h3,
                addData_buffering (⟨s.inMessage, s.bytesNeeded - a.length,
                  s.chunks ++ a⟩ : StreamState) b hbe (by simp at h3 ⊢; omega)]
              simp [List.length_append, List.append_assoc]
              omega
            · -- `a ++ b` completes the current item, and so does `b` from the
              -- partial state: both sides step to identical continuations
              have hpay : s.chunks ++ (a ++ b).take s.bytesNeeded =
                  (s.chunks ++ a) ++ b.take (s.bytesNeeded - a.length) := by
                rw [List.take_append_eq_append_take,
                  List.take_of_length_le (Nat.le_of_lt h2), List.append_assoc]
              have hrest : (a ++ b).drop s.bytesNeeded = b.drop (s.bytesNeeded - a.length) := by
                rw [List.drop_append_eq_append_drop,
                  List.drop_eq_nil_of_le (Nat.le_of_lt h2), List.nil_append]
              have hn0 : s.bytesNeeded ≠ 0 := by omega
              have h2b : ¬ b.length < s.bytesNeeded - a.length := by
                simp only [List.length_append] at h3
                omega
              have hn0b : s.bytesNeeded - a.length ≠ 0 := by omega
              cases him : s.inMessage
              · by_cases hmax : MAX_MSG_LENGTH <
                    u32le ((s.chunks ++ a) ++ b.take (s.bytesNeeded - a.length))
                · rw [addData_header_err s (a ++ b) (by simp [hae]) h3 hn0 him
                      (by rw [hpay]; exact hmax),
                    addData_header_err (⟨false, s.bytesNeeded - a.length,
                      s.chunks ++ a⟩ : StreamState) b hbe h2b hn0b rfl hmax]
                · by_cases hzn : u32le ((s.chunks ++ a) ++ b.take (s.bytesNeeded - a.length)) = 0
                  · rw [addData_header_zero s (a ++ b) (by simp [hae]) h3 hn0 him
                        (by rw [hpay]; exact hzn),
                      addData_header_zero (⟨false, s.bytesNeeded - a.length,
                        s.chunks ++ a⟩ : StreamState) b hbe h2b hn0b rfl hzn, hrest]
                  · rw [addData_header_pos s (a ++ b) (by simp [hae]) h3 hn0 him
                        (by rw [hpay]; exact hmax) (by rw [hpay]; exact hzn),
                      addData_header_pos (⟨false, s.bytesNeeded - a.length,
                        s.chunks ++ a⟩ : StreamState) b hbe h2b hn0b rfl hmax hzn, hrest, hpay]
              · rw [addData_msg s (a ++ b) (by simp [hae]) h3 hn0 him,
                  addData_msg (⟨true, s.bytesNeeded - a.length,
                    s.chunks ++ a⟩ : StreamState) b hbe h2b hn0b rfl, hrest, hpay]
        rw [key, addData_buffering s a hae h2]
        simp only [seqResult, List.nil_append]
      · -- `a` alone completes the current item
        by_cases h3 : s.bytesNeeded = 0
        · rw [addData_dead s (a ++ b) (by simp [hae]) (by simp; omega) h3,
            addData_dead s a hae h2 h3]
          simp [seqResult]
        · have h2ab : ¬ (a ++ b).length < s.bytesNeeded := by
            simp only [List.length_append]
            omega
          have hpay : (a ++ b).take s.bytesNeeded = a.take s.bytesNeeded := by
            rw [List.take_append_eq_append_take,
              show s.bytesNeeded - a.length = 0 by omega]
            simp
          have hrest : (a ++ b).drop s.bytesNeeded = a.drop s.bytesNeeded ++ b := by
            rw [List.drop_append_eq_append_drop,
              show s.bytesNeeded - a.length = 0 by omega]
            simp
          have hdlen : (a.drop s.bytesNeeded).length ≤ N := by
            simp only [List.length_drop]
            omega
          cases him : s.inMessage
          · by_cases hmax : MAX_MSG_LENGTH < u32le (s.chunks ++ a.take s.bytesNeeded)
            · rw [addData_header_err s (a ++ b) (by simp [hae]) h2ab h3 him
                  (by rw [hpay]; exact hmax),
                addData_header_err s a hae h2 h3 him hmax]
              simp [seqResult]
            · by_cases hzn : u32le (s.chunks ++ a.take s.bytesNeeded) = 0
              · rw [addData_header_zero s (a ++ b) (by simp [hae]) h2ab h3 him
                    (by rw [hpay]; exact hzn),
                  addData_header_zero s a hae h2 h3 him hzn, hrest,
                  ih (a.drop s.bytesNeeded) hdlen initialStream b]
                rcases hr : addData initialStream (a.drop s.bytesNeeded) with ⟨m2, o2⟩
                cases o2 <;> simp [seqResult]
              · rw [addData_header_pos s (a ++ b) (by simp [hae]) h2ab h3 him
                    (by rw [hpay]; exact hmax) (by rw [hpay]; exact hzn),
                  addData_header_pos s a hae h2 h3 him hmax hzn, hrest, hpay,
                  ih (a.drop s.bytesNeeded) hdlen _ b]
          · rw [addData_msg s (a ++ b) (by simp [hae]) h2ab h3 him,
              addData_msg s a hae h2 h3 him, hrest, hpay,
              ih (a.drop s.bytesNeeded) hdlen initialStream b]
            rcases hr : addData initialStream (a.drop s.bytesNeeded) with ⟨m2, o2⟩
            cases o2 <;> simp [seqResult]

/-- Chunking invariance, unconditioned form. -/
theorem addData_append (s : StreamState) (a b : List Nat) :
    addData s (a ++ b) = seqResult (addData s a) fun s1 => addData s1 b :=
  addData_append_le a.length a le_rfl s b

/-- Feeding the chunks one `addData` call at a time is the same as one call on
their concatenation. -/
theorem feedChunks_eq_join (cs : List (List Nat)) :
    ∀ s, feedChunks s cs = addData s cs.flatten := by
  induction cs with
  | nil =>
    intro s
    rw [feedChunks, List.flatten_nil, addData_nil]
  | cons c cs ih =>
    intro s
    rw [feedChunks, List.flatten_cons, addData_append]
    simp only [ih]

/-- Decoding one encoded frame at the head of the stream, from the initial
state, emits exactly its payload (length prefix discarded, an empty payload
included) and continues on the rest of the stream from the initial state. -/
theorem addData_encodeFrame (p rest : List Nat) (hlen : p.length ≤ MAX_MSG_LENGTH) :
    addData initialStream (encodeFrame p ++ rest) =
      (p :: (addData initialStream rest).1, (addData initialStream rest).2) := by
  have hlt : p.length < 2 ^ 32 := by
    have h9 : MAX_MSG_LENGTH < 2 ^ 32 := by norm_num [MAX_MSG_LENGTH]
    omega
  have henc : encodeFrame p ++ rest = u32enc p.length ++ (p ++ rest) := by
    simp [encodeFrame, List.append_assoc]
  have h1 : u32enc p.length ++ (p ++ rest) ≠ [] := by simp [u32enc]
  have hn : ¬ (u32enc p.length ++ (p ++ rest)).length < initialStream.bytesNeeded := by
    simp [u32enc, initialStream]
  have h3 : initialStream.bytesNeeded ≠ 0 := by simp [initialStream]
  have htake : (u32enc p.length ++ (p ++ rest)).take initialStream.bytesNeeded =
      u32enc p.length := by
    show (u32enc p.length ++ (p ++ rest)).take 4 = u32enc p.length
    rw [← u32enc_length p.length, List.take_left]
  have hdrop : (u32enc p.length ++ (p ++ rest)).drop initialStream.bytesNeeded = p ++ rest := by
    show (u32enc p.length ++ (p ++ rest)).drop 4 = p ++ rest
    rw [← u32enc_length p.length, List.drop_left]
  have hval : u32le (initialStream.chunks ++
      (u32enc p.length ++ (p ++ rest)).take initialStream.bytesNeeded) = p.length := by
    rw [htake, show initialStream.chunks = [] from rfl, List.nil_append, u32le_u32enc _ hlt]
  by_cases hp : p = []
  · subst hp
    rw [henc, addData_header_zero initialStream _ h1 hn h3 rfl (by rw [hval]; rfl), hdrop,
      List.nil_append]
  · have hpos : p.length ≠ 0 := by simp [hp]
    have hmax : ¬ MAX_MSG_LENGTH < u32le (initialStream.chunks ++
        (u32enc p.length ++ (p ++ rest)).take initialStream.bytesNeeded) := by
      rw [hval]
      omega
    rw [henc, addData_header_pos initialStream _ h1 hn h3 rfl hmax (by rw [hval]; exact hpos),
      hdrop, hval, addData_append,
      addData_msg (⟨true, p.length, []⟩ : StreamState) p hp (by simp) hpos rfl]
    simp [List.take_length, List.drop_length, addData_nil, seqResult, initialStream]

/-- Decoding the concatenation of encoded frames from the initial state emits
exactly the payloads in order and returns to the initial (header-reading)
state. -/
theorem decode_encoded (ps : List (List Nat)) (h : ∀ p ∈ ps, p.length ≤ MAX_MSG_LENGTH) :
    addData initialStream (ps.map encodeFrame).flatten = (ps, some initialStream) := by
  induction ps with
  | nil =>
    rw [List.map_nil, List.flatten_nil, addData_nil]
  | cons p ps ih =>
    rw [List.map_cons, List.flatten_cons, addData_encodeFrame p _ (h p (by simp)),
      ih fun q hq => h q (by simp [hq])]

/-- C1: Framing codec round-trip under arbitrary chunking: for every finite
list of payloads (each at most 1,000,000,000 bytes, zero-length allowed) and
every partition of the concatenation of their encodings into chunks, feeding
the chunks to the decoder in order emits exactly the payloads, in order, with
the length prefixes discarded; the emissions of each call happen during that
call (they are that call's output), and the decoder finishes back in the
initial header-reading state. -/
theorem framing_roundtrip_arbitrary_chunking (ps chunks : List (List Nat))
    (hlen : ∀ p ∈ ps, p.length ≤ 1000000000)
    (hbytes : ∀ p ∈ ps, ∀ byte ∈ p, byte < 256)
    (hchunks : chunks.flatten = (ps.map encodeFrame).flatten) :
    feedChunks initialStream chunks = (ps, some initialStream) := by
  rw [feedChunks_eq_join, hchunks, decode_encoded ps hlen]

/-- Witness for C1: the three frames `encode([1,2,3]) || encode([]) ||
encode([255])` delivered in five chunks, one splitting a length field, one
empty, with a zero-length frame in the middle. -/
theorem framing_roundtrip_witness :
    feedChunks initialStream [[3, 0], [0], [0, 1, 2, 3, 0, 0], [], [0, 0, 1, 0, 0, 0, 255]] =
      ([[1, 2, 3], [], [255]], some initialStream) :=
  framing_roundtrip_arbitrary_chunking [[1, 2, 3], [], [255]] _
    (by decide) (by decide) (by decide)

/-- C4: Framing length limit: splitting the four length bytes of a declared
length `L` anywhere, the decoder accepts the first part silently, and if
`L > 1,000,000,000` the call that supplies the final length byte throws with
nothing emitted, whatever further input was appended to that call (the stream
is poisoned); a declared length `L ≤ 1,000,000,000` is not an error. -/
theorem framing_length_limit (L : Nat) (a b extra : List Nat)
    (hsplit : a ++ b = u32enc L) (hb : b ≠ []) (hL : L < 2 ^ 32) :
    (1000000000 < L →
      addData initialStream a = ([], some ⟨false, 4 - a.length, a⟩) ∧
      addData (⟨false, 4 - a.length, a⟩ : StreamState) (b ++ extra) = ([], none)) ∧
    (L ≤ 1000000000 → (addData initialStream (a ++ b)).2 ≠ none) := by
  have hlen4 : a.length + b.length = 4 := by
    have := congrArg List.length hsplit
    simpa [u32enc_length] using this
  have hbpos : 0 < b.length := List.length_pos.mpr hb
  constructor
  · intro hgt
    have herr : MAX_MSG_LENGTH < u32le (u32enc L) := by
      rw [u32le_u32enc L hL]
      simpa [MAX_MSG_LENGTH] using hgt
    constructor
    · by_cases ha : a = []
      · subst ha
        rw [addData_nil]
        rfl
      · rw [addData_buffering initialStream a ha (by show a.length < 4; omega)]
        rfl
    · have hbe : b ++ extra ≠ [] := by simp [hb]
      have hlt : ¬ (b ++ extra).length <
          (⟨false, 4 - a.length, a⟩ : StreamState).bytesNeeded := by
        simp only [List.length_append]
        show ¬ b.length + extra.length < 4 - a.length
        omega
      have hn0 : (⟨false, 4 - a.length, a⟩ : StreamState).bytesNeeded ≠ 0 := by
        show 4 - a.length ≠ 0
        omega
      have hpayload : (⟨false, 4 - a.length, a⟩ : StreamState).chunks ++
          (b ++ extra).take (⟨false, 4 - a.length, a⟩ : StreamState).bytesNeeded = u32enc L := by
        show a ++ (b ++ extra).take (4 - a.length) = u32enc L
        rw [show 4 - a.length = b.length by omega, List.take_append_eq_append_take,
          List.take_length, Nat.sub_self, List.take_zero, List.append_nil, hsplit]
      exact addData_header_err _ (b ++ extra) hbe hlt hn0 rfl (by rw [hpayload]; exact herr)
  · intro hle
    have h1 : a ++ b ≠ [] := by simp [hb]
    have hn : ¬ (a ++ b).length < initialStream.bytesNeeded := by
      show ¬ (a ++ b).length < 4
      simp only [List.length_append]
      omega
    have h3 : initialStream.bytesNeeded ≠ 0 := by simp [initialStream]
    have htake : initialStream.chunks ++ (a ++ b).take initialStream.bytesNeeded = u32enc L := by
      show [] ++ (a ++ b).take 4 = u32enc L
      rw [List.nil_append,
        List.take_of_length_le (by simp only [List.length_append]; omega), hsplit]
    have hdrop : (a ++ b).drop initialStream.bytesNeeded = [] := by
      show (a ++ b).drop 4 = []
      exact List.drop_eq_nil_of_le (by simp only [List.length_append]; omega)
    have hmax : ¬ MAX_MSG_LENGTH < u32le (initialStream.chunks ++
        (a ++ b).take initialStream.bytesNeeded) := by
      rw [htake, u32le_u32enc L hL]
      simpa [MAX_MSG_LENGTH] using hle
    by_cases hz : L = 0
    · rw [addData_header_zero initialStream _ h1 hn h3 rfl
        (by rw [htake, u32le_u32enc L hL]; exact hz), hdrop, addData_nil]
      simp
    · rw [addData_header_pos initialStream _ h1 hn h3 rfl hmax
        (by rw [htake, u32le_u32enc L hL]; exact hz), hdrop, addData_nil]
      simp

/-- Witness for C4: the byte sequence `[0x01, 0xCA, 0x9A, 0x3B]` declares the
length 1,000,000,001; after the first byte arrives alone, the call supplying
the remaining three bytes (with a further byte appended) throws with nothing
emitted. -/
theorem framing_length_limit_witness :
    addData (⟨false, 3, [1]⟩ : StreamState) ([202, 154, 59] ++ [7]) = ([], none) :=
  ((framing_length_limit 1000000001 [1] [202, 154, 59] [7]
    (by decide) (by decide) (by decide)).1 (by norm_num)).2

/-! ## Connection-header codec: theorems -/

/-- The first `=` of `key || "=" || value` sits at index `key.length` when the
key contains no `=`. -/
theorem indexOf_sep (k v : List Nat) (h : 61 ∉ k) :
    (k ++ 61 :: v).indexOf 61 = k.length := by
  induction k with
  | nil => simp
  | cons a k ih =>
    have ha : a ≠ 61 := fun e => h (by simp [e])
    have hk : 61 ∉ k := fun e => h (by simp [e])
    rw [List.cons_append, List.indexOf_cons_ne _ ha, ih hk, List.length_cons]

/-- One parsing step: a serialized `key=value` entry at the head of the buffer
parses to exactly that pair, and parsing continues on the remaining bytes. -/
theorem parseHeader_cons (k v S : List Nat) (hk : 61 ∉ k)
    (h32 : k.length + 1 + v.length < 2 ^ 32) :
    parseHeader (u32enc (k.length + 1 + v.length) ++ ((k ++ 61 :: v) ++ S)) =
      (k, v) :: parseHeader S := by
  have hKlen : (k ++ 61 :: v).length = k.length + 1 + v.length := by
    simp only [List.length_append, List.length_cons]
    omega
  have hlen : (u32enc (k.length + 1 + v.length) ++ ((k ++ 61 :: v) ++ S)).length
      = 4 + ((k.length + 1 + v.length) + S.length) := by
    simp only [List.length_append, u32enc_length, hKlen]
  have htake : (u32enc (k.length + 1 + v.length) ++ ((k ++ 61 :: v) ++ S)).take 4
      = u32enc (k.length + 1 + v.length) := by
    rw [← u32enc_length (k.length + 1 + v.length), List.take_left]
  have hdrop : (u32enc (k.length + 1 + v.length) ++ ((k ++ 61 :: v) ++ S)).drop 4
      = (k ++ 61 :: v) ++ S := by
    rw [← u32enc_length (k.length + 1 + v.length), List.drop_left]
  have hmin : min (k.length + 1 + v.length)
      ((u32enc (k.length + 1 + v.length) ++ ((k ++ 61 :: v) ++ S)).length - 4)
      = k.length + 1 + v.length := by
    rw [hlen]
    omega
  have hstr : ((k ++ 61 :: v) ++ S).take (k.length + 1 + v.length) = k ++ 61 :: v := by
    rw [← hKlen, List.take_left]
  have hkey : (k ++ 61 :: v).take k.length = k := by
    have : (k ++ 61 :: v).take k.length = (k ++ 61 :: v).take k.length := rfl
    calc (k ++ 61 :: v).take k.length = (k ++ (61 :: v)).take k.length := rfl
    _ = k := List.take_left k (61 :: v)
  have hval : (k ++ 61 :: v).drop (k.length + 1) = v := by
    have hsplit : k ++ 61 :: v = (k ++ [61]) ++ v := by simp
    rw [hsplit, show k.length + 1 = (k ++ [61]).length by simp, List.drop_left]
  have htail : (u32enc (k.length + 1 + v.length) ++ ((k ++ 61 :: v) ++ S)).drop
      (4 + (k.length + 1 + v.length)) = S := by
    rw [← List.append_assoc,
      show 4 + (k.length + 1 + v.length) =
        (u32enc (k.length + 1 + v.length) ++ (k ++ 61 :: v)).length by
          simp only [List.length_append, u32enc_length, hKlen],
      List.drop_left]
  rw [parseHeader, dif_pos (by rw [hlen]; omega)]
  simp only [htake, u32le_u32enc _ h32, hmin, hdrop, hstr, indexOf_sep k v hk, hkey, hval,
    htail]

/-- C3: Handshake header codec round-trip: for every finite mapping of short
ASCII key/value byte strings whose keys contain no `=` (byte 61), parsing the
serialized header yields the same mapping back. -/
theorem header_roundtrip (m : List (List Nat × List Nat))
    (hkeys : ∀ p ∈ m, 61 ∉ p.1)
    (hnodup : (m.map Prod.fst).Nodup)
    (hascii : ∀ p ∈ m, (∀ byte ∈ p.1, byte < 128) ∧ (∀ byte ∈ p.2, byte < 128))
    (hshort : ∀ p ∈ m, p.1.length + 1 + p.2.length < 2 ^ 32) :
    parseHeader (serializeHeader m) = m := by
  induction m with
  | nil =>
    rw [serializeHeader, parseHeader]
    simp
  | cons p m ih =>
    obtain ⟨k, v⟩ := p
    rw [serializeHeader, List.append_assoc,
      parseHeader_cons k v (serializeHeader m) (hkeys (k, v) (by simp))
        (hshort (k, v) (by simp)),
      ih (fun q hq => hkeys q (by simp [hq])) (by simpa using hnodup.of_cons)
        (fun q hq => hascii q (by simp [hq])) (fun q hq => hshort q (by simp [hq]))]

/-- Witness for C3: the two-pair mapping `topic=/a`, `md5sum=*` (as ASCII
bytes) round-trips. -/
theorem header_roundtrip_witness :
    parseHeader (serializeHeader
      [([116, 111, 112, 105, 99], [47, 97]), ([109, 100, 53, 115, 117, 109], [42])]) =
      [([116, 111, 112, 105, 99], [47, 97]), ([109, 100, 53, 115, 117, 109], [42])] :=
  header_roundtrip _ (by decide) (by decide) (by decide) (by decide)

/-! ## Inbound handshake: theorems -/

/-- C2 (amended): rejection characterization of both handshake variants.  The
part_001 variant rejects exactly under the condition the claim states (type
`"*"` is accepted as a wildcard); the src/src/TcpClient.ts variant instead
requires the declared type to equal the publication's type exactly, so it
also rejects a declared type of `"*"`. -/
theorem handshake_validation (nodeName : String) (header : List (String × String))
    (getPub : String → Option Publication) :
    (handleMessagePart001 nodeName header getPub = .closed ↔
      specRejects header getPub = true) ∧
    (handleMessageSrc nodeName header getPub = .closed ↔
      specRejectsExactType header getPub = true) := by
  constructor
  · unfold handleMessagePart001 specRejects
    rcases header.lookup "topic" with _ | topic <;>
      rcases header.lookup "type" with _ | dataType <;>
        rcases header.lookup "callerid" with _ | cid <;>
          simp only [] <;> try simp
    rcases getPub topic with _ | pub
    · simp
    · cases hc1 : (dataType != "*" && pub.dataType != dataType) <;>
        cases hc2 : ((header.lookup "md5sum").getD "*" != "*" &&
          pub.md5sum != (header.lookup "md5sum").getD "*") <;>
          (simp [hc1, hc2]; try (simp at hc1 hc2; tauto))
  · unfold handleMessageSrc specRejectsExactType
    rcases header.lookup "topic" with _ | topic <;>
      rcases header.lookup "type" with _ | dataType <;>
        rcases header.lookup "callerid" with _ | cid <;>
          simp only [] <;> try simp
    rcases getPub topic with _ | pub
    · simp
    · cases hc1 : (pub.dataType != dataType) <;>
        cases hc2 : ((header.lookup "md5sum").getD "*" != "*" &&
          pub.md5sum != (header.lookup "md5sum").getD "*") <;>
          (simp [hc1, hc2]; try (simp at hc1 hc2; tauto))

/-- Counterexample for C2: a request header declaring type `"*"` for an
advertised `std_msgs/Bool` topic with wildcard md5sum satisfies the claim's
acceptance condition, yet the src/src/TcpClient.ts variant rejects it and
closes the socket. -/
theorem handshake_star_type_counterexample :
    handleMessageSrc "/talker" starTypeHeader boolPubTable = .closed ∧
    specRejects starTypeHeader boolPubTable = false := by
  constructor
  · rfl
  · rfl

/-- Keys of `jsMapSet`: looking up the key just set yields the value just set
(`Map.set` followed by `Map.get`). -/
theorem lookup_replace {κ α : Type} [BEq κ] [LawfulBEq κ] (m : List (κ × α)) (k : κ) (v : α)
    (h : m.any (fun p => p.1 == k) = true) :
    (m.map fun p => if p.1 == k then (k, v) else p).lookup k = some v := by
  induction m with
  | nil => simp at h
  | cons p m ih =>
    obtain ⟨pk, pv⟩ := p
    rw [List.map_cons]
    simp only []
    by_cases hp : (pk == k) = true
    · rw [if_pos hp]
      simp [List.lookup]
    · have hp' : (pk == k) = false := by simpa using hp
      have hne : (k == pk) = false := by
        rw [beq_eq_false_iff_ne] at hp' ⊢
        exact fun e => hp' e.symm
      have h' : m.any (fun p => p.1 == k) = true := by
        rw [List.any_cons] at h
        simp only [hp', Bool.false_or] at h
        exact h
      rw [if_neg hp]
      simp only [List.lookup, hne]
      exact ih h'

theorem lookup_append_new {κ α : Type} [BEq κ] [LawfulBEq κ] (m : List (κ × α)) (k : κ) (v : α)
    (h : m.any (fun p => p.1 == k) = false) :
    (m ++ [(k, v)]).lookup k = some v := by
  induction m with
  | nil => simp [List.lookup]
  | cons p m ih =>
    obtain ⟨pk, pv⟩ := p
    rw [List.any_cons, Bool.or_eq_false_iff] at h
    obtain ⟨hp, h'⟩ := h
    have hne : (k == pk) = false := by
      rw [beq_eq_false_iff_ne] at hp ⊢
      exact fun e => hp e.symm
    rw [List.cons_append]
    simp only [List.lookup, hne]
    exact ih h'

/-- `Map.get` after `Map.set` returns the value just set. -/
theorem lookup_jsMapSet {κ α : Type} [BEq κ] [LawfulBEq κ] (m : List (κ × α)) (k : κ) (v : α) :
    (jsMapSet m k v).lookup k = some v := by
  unfold jsMapSet
  by_cases h : m.any (fun p => p.1 == k) = true
  · rw [if_pos h]
    exact lookup_replace m k v h
  · rw [if_neg h]
    exact lookup_append_new m k v (Bool.not_eq_true _ ▸ h)

/-- `Publication.write` always resolves to success: each `TcpClient.write`
task catches its socket failure, and `Promise.allSettled` fulfills whatever
the individual outcomes were. -/
theorem publicationWrite_ok (p : Publication) (tt : String) (data : List Nat) :
    publicationWrite p tt data = .ok
      { (if p.latching then { p with latched := jsMapSet p.latched tt data } else p) with
        subscribers :=
          (if p.latching then { p with latched := jsMapSet p.latched tt data }
            else p).subscribers.map
            fun sub => if sub.transportType == tt then (clientWrite sub data).1 else sub } :=
  rfl

/-- C5: Handshake acceptance effects: on acceptance, `setNoDelay` receives
`true` iff the remote's `tcp_nodelay` field is the string `"1"`; the response
header written back has exactly the six keys `callerid`, `latching`,
`md5sum`, `message_definition`, `topic`, `type`; the latched-payload write is
exactly the publication's stored latched payload for the TCPROS transport
kind (absent when none is stored); and a latching publication replaces its
stored latched payload for the transport kind on every write. -/
theorem handshake_acceptance_effects (nodeName : String) (header : List (String × String))
    (getPub : String → Option Publication) (nd : Bool) (resp : List (String × String))
    (lw : Option (List Nat)) (top cid : String)
    (hacc : handleMessageSrc nodeName header getPub = .accepted nd resp lw top cid) :
    nd = (header.lookup "tcp_nodelay" == some "1") ∧
    resp.map Prod.fst =
      ["callerid", "latching", "md5sum", "message_definition", "topic", "type"] ∧
    (∃ pub, getPub top = some pub ∧ resp = responseHeader nodeName pub ∧
      lw = latchedMessage pub "TCPROS") ∧
    (∀ (q : Publication) (tt : String) (data : List Nat), q.latching = true →
      ∃ q2, publicationWrite q tt data = .ok q2 ∧ latchedMessage q2 tt = some data) := by
  unfold handleMessageSrc at hacc
  rcases htop : header.lookup "topic" with _ | topic <;> rw [htop] at hacc <;>
    rcases hty : header.lookup "type" with _ | dataType <;> rw [hty] at hacc <;>
      rcases hcid : header.lookup "callerid" with _ | cid2 <;> rw [hcid] at hacc <;>
        try simp at hacc
  rcases hpub : getPub topic with _ | pub <;> rw [hpub] at hacc
  · simp at hacc
  · split at hacc
    · rename_i heq
      exact absurd heq (by simp)
    · rename_i pub2 heq
      injection heq with hpp
      subst hpp
      split at hacc
      · split at hacc
        · simp at hacc
        · simp only [HandshakeOutcome.accepted.injEq] at hacc
          obtain ⟨h1, h2, h3, h4, h5⟩ := hacc
          subst h1
          subst h2
          subst h3
          subst h4
          subst h5
          refine ⟨rfl, by simp [responseHeader], ⟨pub, hpub, rfl, rfl⟩, ?_⟩
          intro q tt data hl
          refine ⟨_, publicationWrite_ok q tt data, ?_⟩
          simp only [latchedMessage, hl, if_true]
          exact lookup_jsMapSet q.latched tt data
      · simp at hacc

/-- Witness for C5: a concrete accepted handshake for `boolPub` (with
`tcp_nodelay = "1"` and no declared md5sum); the response header carries
exactly the six required keys. -/
theorem handshake_acceptance_effects_witness :
    (responseHeader "/me" boolPub).map Prod.fst =
      ["callerid", "latching", "md5sum", "message_definition", "topic", "type"] :=
  (handshake_acceptance_effects "/me" acceptHeader boolPubTable true
    (responseHeader "/me" boolPub) none "/chatter" "/sub" rfl).2.1

/-- C6: Fan-out publish is no-fail-fast: `Publication.write` always resolves
(never `.error`), every attached subscriber with the matching transport type
receives the same payload through its own `TcpClient.write` (its update is a
function of its own link only, so one subscriber's failure cannot affect
another's write), and a healthy matching subscriber's stats show the
delivered payload whatever the other subscribers' failure flags are. -/
theorem publish_fanout_no_fail_fast (p : Publication) (tt : String) (data : List Nat) :
    ∃ q, publicationWrite p tt data = .ok q ∧
      q.subscribers = p.subscribers.map
        (fun sub => if sub.transportType == tt then (clientWrite sub data).1 else sub) ∧
      (∀ sub ∈ p.subscribers, sub.transportType = tt → sub.writeFails = false →
        { sub with messagesSent := sub.messagesSent + 1,
                   bytesSent := sub.bytesSent + data.length } ∈ q.subscribers) ∧
      q.latched = (if p.latching then jsMapSet p.latched tt data else p.latched) := by
  refine ⟨_, rfl, ?_, ?_, ?_⟩
  · show ((if p.latching then
        { p with latched := jsMapSet p.latched tt data } else p).subscribers).map _ =
      p.subscribers.map _
    cases hl : p.latching <;> simp
  · intro sub hmem htt hwf
    show _ ∈ ((if p.latching then
        { p with latched := jsMapSet p.latched tt data } else p).subscribers).map _
    have hsubs : (if p.latching then
        { p with latched := jsMapSet p.latched tt data } else p).subscribers =
        p.subscribers := by
      cases hl : p.latching <;> simp
    rw [hsubs]
    refine List.mem_map.mpr ⟨sub, hmem, ?_⟩
    rw [if_pos (by simp [htt]), clientWrite, socketWrite, hwf]
    simp
  · show (if p.latching then
        { p with latched := jsMapSet p.latched tt data } else p).latched = _
    cases hl : p.latching <;> simp

/-- Witness for C6: publishing `[1, 2]` on a publication with one healthy and
one failing subscriber resolves successfully and the healthy subscriber's
stats record the delivered two-byte message. -/
theorem publish_fanout_no_fail_fast_witness :
    ∃ q, publicationWrite pubTwoSubs "TCPROS" [1, 2] = .ok q ∧
      (⟨1, "/subA", "TCPROS", false, 2, 1⟩ : SubscriberLink) ∈ q.subscribers := by
  obtain ⟨q, h1, h2, h3, h4⟩ := publish_fanout_no_fail_fast pubTwoSubs "TCPROS" [1, 2]
  exact ⟨q, h1, h3 linkGood (by simp [pubTwoSubs]) rfl rfl⟩

/-! ## `requestTopic`: theorems -/

/-- `TcpRequested` finds exactly the entries claim C7 describes. -/
theorem tcpRequested_iff (ps : List XmlRpcValue) :
    tcpRequested ps = true ↔ ∃ rest, XmlRpcValue.arr (.str "TCPROS" :: rest) ∈ ps := by
  unfold tcpRequested
  rw [List.any_eq_true]
  constructor
  · rintro ⟨x, hx, hxe⟩
    cases x with
    | arr xs =>
      cases xs with
      | nil => simp [isTcprosEntry] at hxe
      | cons y ys =>
        cases y with
        | str s =>
          have hs : s = "TCPROS" := by simpa [isTcprosEntry] using hxe
          exact ⟨ys, hs ▸ hx⟩
        | num n => simp [isTcprosEntry] at hxe
        | boolean b => simp [isTcprosEntry] at hxe
        | arr zs => simp [isTcprosEntry] at hxe
    | str s => simp [isTcprosEntry] at hxe
    | num n => simp [isTcprosEntry] at hxe
    | boolean b => simp [isTcprosEntry] at hxe
  · rintro ⟨rest, hmem⟩
    exact ⟨_, hmem, by simp [isTcprosEntry]⟩

/-- C7: `requestTopic` policy: an unpublished topic yields code 0 with empty
value; a protocol list without a TCPROS entry (or a non-list) yields
`(0, "unsupported protocol", [])`; a missing TCP listener yields
`(0, "cannot receive incoming connections", [])`; otherwise code 1 with
`["TCPROS", host, port]` where `host` is the (normalized) local address of
the HTTP socket the RPC arrived on, falling back to the TCP listener's
address, and `port` is the TCP listener's port. -/
theorem requestTopic_policy (env : RequestTopicEnv) (topic : String)
    (protocols : XmlRpcValue) (process : String → String) :
    (env.publications.contains topic = false →
      ∃ msg, requestTopic env topic protocols process = (0, msg, .arr [])) ∧
    (env.publications.contains topic = true →
      (¬ protocolsHaveTcpEntry protocols →
        requestTopic env topic protocols process = (0, "unsupported protocol", .arr [])) ∧
      (protocolsHaveTcpEntry protocols →
        (env.tcpAddr = none →
          requestTopic env topic protocols process =
            (0, "cannot receive incoming connections", .arr [])) ∧
        (∀ address port, env.tcpAddr = some (address, port) →
          requestTopic env topic protocols process =
            (1, "", .arr [.str "TCPROS",
              .str (process (env.httpLocalAddress.getD address)), .num port])))) := by
  constructor
  · intro hfalse
    refine ⟨"topic \"" ++ topic ++ " is not advertised by node " ++ env.nodeName ++ "\"", ?_⟩
    unfold requestTopic
    rw [if_pos (by rw [hfalse]; simp)]
  · intro htrue
    constructor
    · intro hno
      unfold requestTopic
      rw [if_neg (by rw [htrue]; simp)]
      cases protocols with
      | arr ps =>
        have hT : tcpRequested ps = false := by
          rw [← Bool.not_eq_true, tcpRequested_iff]
          rintro ⟨rest, hmem⟩
          exact hno ⟨ps, rest, rfl, hmem⟩
        show (if ¬ tcpRequested ps then ((0 : Nat), "unsupported protocol", XmlRpcValue.arr [])
          else _) = ((0 : Nat), "unsupported protocol", XmlRpcValue.arr [])
        rw [if_pos (by simp [hT])]
      | str s => rfl
      | num n => rfl
      | boolean b => rfl
    · intro hyes
      obtain ⟨ps, rest, rfl, hmem⟩ := hyes
      have hT : tcpRequested ps = true := (tcpRequested_iff ps).mpr ⟨rest, hmem⟩
      have hred : requestTopic env topic (.arr ps) process =
          if ¬ tcpRequested ps then ((0 : Nat), "unsupported protocol", XmlRpcValue.arr [])
          else match env.tcpAddr with
            | none => ((0 : Nat), "cannot receive incoming connections", XmlRpcValue.arr [])
            | some (address, port) =>
              (1, "", XmlRpcValue.arr [XmlRpcValue.str "TCPROS",
                XmlRpcValue.str (process (env.httpLocalAddress.getD address)),
                XmlRpcValue.num port]) := by
        unfold requestTopic
        rw [if_neg (by rw [htrue]; simp)]
      constructor
      · intro haddr
        rw [hred, if_neg (by simp [hT]), haddr]
      · intro address port haddr
        rw [hred, if_neg (by simp [hT]), haddr]

/-- Witness for C7: a published topic, a `[["TCPROS"]]` protocol list, a
bound TCP listener on port 42, and an HTTP socket local address; the result
echoes the HTTP socket's address with the TCP listener's port. -/
theorem requestTopic_policy_witness :
    requestTopic ⟨"/node", ["/a"], some ("10.0.0.1", 42), some "192.168.0.5"⟩ "/a"
      (.arr [.arr [.str "TCPROS"]]) id =
      (1, "", .arr [.str "TCPROS", .str "192.168.0.5", .num 42]) :=
  (((requestTopic_policy ⟨"/node", ["/a"], some ("10.0.0.1", 42), some "192.168.0.5"⟩ "/a"
      (.arr [.arr [.str "TCPROS"]]) id).2 (by decide)).2
    ⟨[.arr [.str "TCPROS"]], [], rfl, by simp⟩).2 "10.0.0.1" 42 rfl

/-! ## Backoff and retry: theorems -/

/-- C8: Backoff bounds and monotonicity: with the default `maxMs = 10000` and
`maxJitterMs = 1000` and any RNG sample in `[0, 1)`, the delay is between 1
and 10000 milliseconds and, for a fixed RNG sample, is monotonically
nondecreasing in the retry count. -/
theorem backoff_bounds_monotone (n : Nat) (rand : ℚ) (h0 : 0 ≤ rand) (h1 : rand < 1) :
    1 ≤ backoffTime n 10000 1000 rand ∧ backoffTime n 10000 1000 rand ≤ 10000 ∧
    ∀ m, n ≤ m → backoffTime n 10000 1000 rand ≤ backoffTime m 10000 1000 rand := by
  unfold backoffTime
  have hpow : ∀ j : Nat, (1 : ℚ) ≤ 2 ^ j := fun j => one_le_pow₀ (by norm_num)
  have hjit : (0 : ℚ) ≤ rand * 1000 := mul_nonneg h0 (by norm_num)
  refine ⟨le_min (by have := hpow n; linarith) (by norm_num), min_le_right _ _, ?_⟩
  intro m hm
  have hmono : (2 : ℚ) ^ n ≤ 2 ^ m := pow_le_pow_right (by norm_num) hm
  exact min_le_min (by linarith) le_rfl

/-- Witness for C8: the bounds and monotonicity at `n = 3`, `rand = 1/2`. -/
theorem backoff_bounds_monotone_witness :
    1 ≤ backoffTime 3 10000 1000 (1 / 2) ∧ backoffTime 3 10000 1000 (1 / 2) ≤ 10000 ∧
    ∀ m, 3 ≤ m → backoffTime 3 10000 1000 (1 / 2) ≤ backoffTime m 10000 1000 (1 / 2) :=
  backoff_bounds_monotone 3 (1 / 2) (by norm_num) (by norm_num)

/-- Helper for C9, with an explicit starting attempt index: if the first `k`
invocations from index `i` fail and invocation `i + k` succeeds, the run
makes `i + k + 1` invocations in total, sleeps the full
`backoffTime (attempt)` between consecutive attempts (attempt counts start at
1 and increase by one per failure), and returns the successful result. -/
theorem retryForeverRun_shift (k : Nat) :
    ∀ (ops : Nat → Except String (List String)) (rand : Nat → ℚ) (v : List String)
      (i fuel : Nat), ops (i + k) = .ok v → (∀ j, j < k → ∃ e, ops (i + j) = .error e) →
      k < fuel →
      retryForeverRun ops rand fuel i =
        some (i + k + 1,
          (List.range k).map (fun j => backoffTime (i + j + 1) 10000 1000 (rand (i + j + 1))),
          v) := by
  induction k with
  | zero =>
    intro ops rand v i fuel hk hfail hfuel
    have hk0 : ops i = .ok v := by simpa using hk
    cases fuel with
    | zero => omega
    | succ f =>
      simp [retryForeverRun, hk0]
  | succ k ih =>
    intro ops rand v i fuel hk hfail hfuel
    obtain ⟨e, he⟩ := hfail 0 (by omega)
    have he0 : ops i = .error e := by simpa using he
    cases fuel with
    | zero => omega
    | succ f =>
      have hrec := ih ops rand v (i + 1) f
        (by rw [show i + 1 + k = i + (k + 1) by omega]; exact hk)
        (fun j hj => by
          obtain ⟨e2, he2⟩ := hfail (j + 1) (by omega)
          exact ⟨e2, by rw [show i + 1 + j = i + (j + 1) by omega]; exact he2⟩)
        (by omega)
      have hsleeps : (List.range (k + 1)).map
            (fun j => backoffTime (i + j + 1) 10000 1000 (rand (i + j + 1))) =
          backoffTime (i + 1) 10000 1000 (rand (i + 1)) ::
            (List.range k).map
              (fun j => backoffTime (i + 1 + j + 1) 10000 1000 (rand (i + 1 + j + 1))) := by
        rw [List.range_succ_eq_map, List.map_cons, List.map_map]
        refine congrArg₂ _ (by norm_num) ?_
        refine List.map_congr_left fun j _ => ?_
        simp only [Function.comp]
        rw [show i + (j + 1) + 1 = i + 1 + j + 1 by omega]
      have hstep : retryForeverRun ops rand (f + 1) i =
          match retryForeverRun ops rand f (i + 1) with
          | none => none
          | some (count, sleeps, v2) =>
            some (count, backoffTime (i + 1) 10000 1000 (rand (i + 1)) :: sleeps, v2) := by
        simp [retryForeverRun, he0]
      rw [hstep, hrec, hsleeps, show i + 1 + k + 1 = i + (k + 1) + 1 by omega]

/-- C9 (amended): `retryForever(op)` invokes the operation repeatedly until
an invocation succeeds and returns that invocation's result; between
attempts it sleeps the full `backoff_delay(n)` where `n` is the attempt
count starting at 1.  The primitive itself has no cancellation input: a
caller cancels by making the operation observe the cancellation and return
success vacuously, so the current sleep always runs to its full duration and
the operation is invoked once more before the loop exits (see the
counterexample theorem). -/
theorem retryForever_contract (ops : Nat → Except String (List String)) (rand : Nat → ℚ)
    (k : Nat) (v : List String) (hk : ops k = .ok v)
    (hfail : ∀ j, j < k → ∃ e, ops j = .error e) (fuel : Nat) (hfuel : k < fuel) :
    retryForeverRun ops rand fuel 0 =
      some (k + 1,
        (List.range k).map (fun j => backoffTime (j + 1) 10000 1000 (rand (j + 1))), v) := by
  have h := retryForeverRun_shift k ops rand v 0 fuel (by simpa using hk)
    (fun j hj => by simpa using hfail j hj) hfuel
  simpa using h

/-- Witness for C9: an operation that fails twice and succeeds on the third
invocation; the run makes three invocations and sleeps `backoffTime 1` and
`backoffTime 2` in between. -/
theorem retryForever_contract_witness :
    retryForeverRun (fun i => if i < 2 then .error "down" else .ok ["u"]) (fun _ => 0) 4 0 =
      some (3, (List.range 2).map (fun j => backoffTime (j + 1) 10000 1000 0), ["u"]) :=
  retryForever_contract _ _ 2 ["u"] rfl
    (fun j hj => ⟨"down", by
      rcases j with _ | j0
      · rfl
      · rcases j0 with _ | j1
        · rfl
        · exact absurd hj (by omega)⟩) 4 (by norm_num)

/-- Counterexample for C9: cancellation in the source works by the operation
itself (here `registerOp`, from `RosNode._registerSubscriberAndConnect`)
observing that the subscription is gone and returning vacuous success.  With
the subscription torn down right after the first failed invocation, the loop
still sleeps the full `backoffTime 1` and invokes the operation a second
time before exiting: the claim's "the next sleep returns early and the loop
exits without invoking op again" is false of the code. -/
theorem retryForever_not_cancellable :
    retryForeverRun (registerOp (fun i => i == 0) (fun _ => .error "master unreachable"))
      (fun _ => 1 / 2) 5 0 =
      some (2, [backoffTime 1 10000 1000 (1 / 2)], []) := by
  rfl

/-! ## Publication subscriber pruning: theorems -/

/-- Freshness of connection ids preserves the absence of a given id across
any event sequence: if no event adds the id back and the id is absent, it
stays absent. -/
theorem runEvents_no_id (id : Nat) (evs : List ClientEvent) :
    ∀ p : Publication, (∀ e ∈ evs, eventAddsId e id = false) →
      (∀ s ∈ p.subscribers, s.connectionId ≠ id) →
      ∀ s ∈ (runEvents p evs).subscribers, s.connectionId ≠ id := by
  induction evs with
  | nil =>
    intro p _ hp
    exact hp
  | cons e evs ih =>
    intro p hevs hp
    show ∀ s ∈ (runEvents (applyEvent p e) evs).subscribers, s.connectionId ≠ id
    apply ih (applyEvent p e) (fun e2 he2 => hevs e2 (by simp [he2]))
    cases e with
    | add link =>
      have hlink : link.connectionId ≠ id := by
        have := hevs (.add link) (by simp)
        simpa [eventAddsId] using this
      intro s hs
      unfold applyEvent addSubscriber at hs
      simp only [] at hs
      by_cases hc : p.subscribers.any (fun s => s.connectionId == link.connectionId) = true
      · rw [if_pos hc] at hs
        obtain ⟨t, ht, rfl⟩ := List.mem_map.mp hs
        by_cases htl : (t.connectionId == link.connectionId) = true
        · rw [if_pos htl]
          exact hlink
        · rw [if_neg htl]
          exact hp t ht
      · rw [if_neg hc] at hs
        rcases List.mem_append.mp hs with hs | hs
        · exact hp s hs
        · have : s = link := by simpa using hs
          rw [this]
          exact hlink
    | clientClose j =>
      intro s hs
      unfold applyEvent removeSubscriber at hs
      simp only [] at hs
      exact hp s (List.mem_of_mem_filter hs)

/-- C10: dead subscribers are pruned: once a subscriber client's `close`
event fires, its connection id is deleted from the publication's subscriber
map, and — because connection ids come from a monotone counter and are never
reused — no later event re-adds it, so the subscriber set never again
contains that id and subsequent `write` fan-out, `getInfo`, and `getStats`
no longer include the closed client. -/
theorem closed_subscriber_pruned (p : Publication) (id : Nat) (evs : List ClientEvent)
    (hfresh : ∀ e ∈ evs, eventAddsId e id = false) :
    (∀ s ∈ (runEvents (removeSubscriber p id) evs).subscribers, s.connectionId ≠ id) ∧
    (∀ info ∈ getInfo (runEvents (removeSubscriber p id) evs), info.1 ≠ id) ∧
    (∀ st ∈ (getStats (runEvents (removeSubscriber p id) evs)).2, st.1 ≠ id) ∧
    (∀ tt, ∀ s ∈ writeTargets (runEvents (removeSubscriber p id) evs) tt,
      s.connectionId ≠ id) := by
  have base : ∀ s ∈ (removeSubscriber p id).subscribers, s.connectionId ≠ id := by
    intro s hs
    unfold removeSubscriber at hs
    simp only [] at hs
    have := List.mem_filter.mp hs
    simpa using this.2
  have main := runEvents_no_id id evs (removeSubscriber p id) hfresh base
  refine ⟨main, ?_, ?_, ?_⟩
  · intro info hinfo
    obtain ⟨s, hs, rfl⟩ := List.mem_map.mp hinfo
    exact main s hs
  · intro st hst
    obtain ⟨s, hs, rfl⟩ := List.mem_map.mp hst
    exact main s hs
  · intro tt s hs
    exact main s (List.mem_of_mem_filter hs)

/-- Witness for C10: after subscriber 2's close event and the arrival of a
fresh subscriber 3, the surviving subscriber 1 is indeed not the closed one. -/
theorem closed_subscriber_pruned_witness :
    linkGood.connectionId ≠ 2 :=
  (closed_subscriber_pruned pubTwoSubs 2
    [.add ⟨3, "/subC", "TCPROS", false, 0, 0⟩] (by decide)).1 linkGood (by decide)

end Ros1
